import Mathlib

/-!
Shallow embedding of the batch processing engine of the wildlife-detector
application (`src/wildlife_detector/core/batch_processor.py` and the parts of
`src/wildlife_detector/core/species_detector.py` it relies on).

Machine reals (Python floats used for wall-clock durations and confidences)
are modelled as rationals `ℚ`; wall-clock reads (`time.time()`) are explicit
parameters supplied by the environment; Python dicts (insertion-ordered) are
modelled as association lists; threading is modelled by an explicit completion
order (the order in which `as_completed` yields finished futures) together
with per-iteration reads of the shared `stop_requested` flag.
-/

namespace WildlifeDetector

/-- One classifier detection record (`species_detector.py`, the dicts built in
`_detect_with_mock` / `_detect_with_speciesnet`): label, names, confidence,
category tag and a bounding box.  Records produced by the repository's own
detectors always carry every key. -/
structure Detection where
  species : String
  scientific_name : String
  common_name : String
  confidence : ℚ
  category : String
  bbox : List Int
deriving DecidableEq

/-- `DetectionResult` dataclass (`species_detector.py` lines 32-39), with the
source's field defaults. -/
structure DetectionResult where
  image_path : String
  detections : List Detection
  processing_time : ℚ := 0
  success : Bool := true
  error_message : String := ""
deriving DecidableEq

/-- Environment of one `detect_species` call for one path: whether
`os.path.exists` succeeds, whether `_load_and_preprocess_image` returns an
image (it catches its own errors and returns `None` on failure), the raw
detections the (mock or real) classifier returns, and the measured wall-clock
duration of the call. -/
structure PathEnv where
  fileExists : Bool
  imageLoads : Bool
  rawDetections : List Detection
  duration : ℚ
deriving DecidableEq

/-- `SpeciesDetector.detect_species` (`species_detector.py` lines 141-196).
All exceptions are raised and caught inside the function itself, so it is
total: it always returns a `DetectionResult` for the given path.  The three
failure modes are the three `raise` sites of the source, each with the
source's (non-empty) message; on success the detections are filtered by
`confidence >= config.confidence_threshold` (line 174-177). -/
def detect_species (is_initialized : Bool) (confidence_threshold : ℚ)
    (image_path : String) (env : PathEnv) : DetectionResult :=
  if !is_initialized then
    { image_path := image_path, detections := [], processing_time := env.duration,
      success := false, error_message := "検出器が初期化されていません" }
  else if !env.fileExists then
    { image_path := image_path, detections := [], processing_time := env.duration,
      success := false,
      error_message := "画像ファイルが見つかりません: " ++ image_path }
  else if !env.imageLoads then
    { image_path := image_path, detections := [], processing_time := env.duration,
      success := false, error_message := "画像の読み込みに失敗しました" }
  else
    { image_path := image_path,
      detections := env.rawDetections.filter
        (fun d => confidence_threshold ≤ d.confidence),
      processing_time := env.duration, success := true, error_message := "" }

/-- The condition under which `detect_species` reports an error for a path
(one of its three internal raises fires). -/
def detectFails (is_initialized : Bool) (env : PathEnv) : Bool :=
  !is_initialized || !env.fileExists || !env.imageLoads

/-- `BatchProgress` dataclass (`batch_processor.py` lines 32-42), with the
source's defaults. -/
structure BatchProgress where
  job_id : String
  processed : Nat := 0
  total : Nat := 0
  success : Nat := 0
  failed : Nat := 0
  current_file : String := ""
  elapsed_time : ℚ := 0
  estimated_remaining : ℚ := 0
deriving DecidableEq

/-- `BatchProgress.progress_percentage` (lines 44-49). -/
def BatchProgress.progress_percentage (p : BatchProgress) : ℚ :=
  if p.total = 0 then 0 else ((p.processed : ℚ) / (p.total : ℚ)) * 100

/-- `BatchProgress.success_rate` (lines 51-56). -/
def BatchProgress.success_rate (p : BatchProgress) : ℚ :=
  if p.processed = 0 then 0 else ((p.success : ℚ) / (p.processed : ℚ)) * 100

/-- `ProcessingStats` dataclass (`batch_processor.py` lines 58-69).  The two
Python dicts are insertion-ordered association lists. -/
structure ProcessingStats where
  total_images : Nat := 0
  processed_images : Nat := 0
  successful_detections : Nat := 0
  failed_detections : Nat := 0
  total_detections : Nat := 0
  processing_time : ℚ := 0
  average_time_per_image : ℚ := 0
  species_counts : List (String × Nat) := []
  error_counts : List (String × Nat) := []
deriving DecidableEq

/-- `dict[k] = dict.get(k, 0) + 1` on an insertion-ordered Python dict:
bump an existing key in place, or append a new key at the end. -/
def dictIncr : List (String × Nat) → String → List (String × Nat)
  | [], k => [(k, 1)]
  | (k', v) :: rest, k =>
    if k' = k then (k', v + 1) :: rest else (k', v) :: dictIncr rest k

/-- Accumulator of the single pass of `_generate_statistics` over the result
list (lines 305-325). -/
structure StatsAcc where
  successful_detections : Nat := 0
  total_detections : Nat := 0
  species_counts : List (String × Nat) := []
  error_counts : List (String × Nat) := []
  total_processing_time : ℚ := 0

/-- One iteration of the `for result in results` loop of
`_generate_statistics` (lines 311-325): always add the item's
`processing_time`; on success count the item and its detections and tally
`detection.get('common_name', 'Unknown')` (the repo's detectors always set
`common_name`); on failure tally `error_message or 'Unknown Error'`. -/
def statsStep (acc : StatsAcc) (result : DetectionResult) : StatsAcc :=
  let acc := { acc with
    total_processing_time := acc.total_processing_time + result.processing_time }
  if result.success then
    { acc with
      successful_detections := acc.successful_detections + 1,
      total_detections := acc.total_detections + result.detections.length,
      species_counts := result.detections.foldl
        (fun m d => dictIncr m d.common_name) acc.species_counts }
  else
    let error_msg :=
      if result.error_message = "" then "Unknown Error" else result.error_message
    { acc with error_counts := dictIncr acc.error_counts error_msg }

/-- `BatchProcessor._generate_statistics` (lines 303-338).  `now` is the
`time.time()` read at line 334 and `start` is `self._start_time`; the average
is `total_processing_time / len(results) if results else 0.0` (line 335). -/
def generate_statistics (results : List DetectionResult) (now start : ℚ) :
    ProcessingStats :=
  let acc := results.foldl statsStep {}
  { total_images := results.length
    processed_images := results.length
    successful_detections := acc.successful_detections
    failed_detections := results.length - acc.successful_detections
    total_detections := acc.total_detections
    processing_time := now - start
    average_time_per_image :=
      if results.isEmpty then 0
      else acc.total_processing_time / (results.length : ℚ)
    species_counts := acc.species_counts
    error_counts := acc.error_counts }

/-- `BatchProcessor._update_progress_counts` (lines 291-301): under the
results lock, increment `processed` and exactly one of `success` / `failed`,
and refresh `elapsed_time` from the wall clock (`now` is the `time.time()`
read at line 301).  The guarding `if self.progress:` always holds during a
run, where the progress object has been created. -/
def update_progress_counts (p : BatchProgress) (succ : Bool) (now start : ℚ) :
    BatchProgress :=
  { p with
    processed := p.processed + 1
    success := if succ then p.success + 1 else p.success
    failed := if succ then p.failed else p.failed + 1
    elapsed_time := now - start }

/-- The progress object after a sequence of `_update_progress_counts` calls,
one event per completed item: `(succ, now)` is the item's success flag and
the wall-clock read of its update. -/
def progressAfter (pr : BatchProgress) (events : List (Bool × ℚ)) (start : ℚ) :
    BatchProgress :=
  events.foldl (fun p ev => update_progress_counts p ev.1 ev.2 start) pr

/-- The shared loop shape of `_process_sequential` (lines 208-232) and the
result-collection loop of `_process_parallel` (lines 247-283): at the `i`-th
iteration, first read the shared `stop_requested` flag (`stopAt i`) and break
if it is set; otherwise obtain the item's `DetectionResult`, append it, and
update the progress counters with that item's success flag at wall-clock time
`tickAt i`.  Returns the collected results and the final progress object. -/
def processLoop (detect : String → DetectionResult) (stopAt : Nat → Bool)
    (tickAt : Nat → ℚ) (start : ℚ) :
    Nat → List String → BatchProgress → List DetectionResult × BatchProgress
  | _, [], pr => ([], pr)
  | i, p :: rest, pr =>
    if stopAt i then ([], pr)
    else
      let r := detect p
      let rp := processLoop detect stopAt tickAt start (i + 1) rest
        (update_progress_counts pr r.success (tickAt i) start)
      (r :: rp.1, rp.2)

/-- `BatchProcessor._process_sequential` (lines 208-232): one item per input
path, in input order. -/
def process_sequential (detect : String → DetectionResult) (stopAt : Nat → Bool)
    (tickAt : Nat → ℚ) (start : ℚ) (image_paths : List String)
    (pr : BatchProgress) : List DetectionResult × BatchProgress :=
  processLoop detect stopAt tickAt start 0 image_paths pr

/-- One collected item of `_process_parallel` (lines 255-283): if
`future.result()` raised (`futureExn p = some m`, the `except` branch of
lines 273-283), record the error result built there (its `processing_time`
is the dataclass default `0.0`); otherwise the future's `DetectionResult`
(`detect_species` is total, so the repo's own futures do not raise). -/
def parallelItem (detect : String → DetectionResult)
    (futureExn : String → Option String) (p : String) : DetectionResult :=
  match futureExn p with
  | some m =>
    { image_path := p, detections := [], success := false, error_message := m }
  | none => detect p

/-- `BatchProcessor._process_parallel` (lines 234-285): all paths are
submitted as futures; `as_completed` yields them in `completionOrder` (a
permutation of the input paths decided by the scheduler); the collection
loop has the shape of `processLoop`. -/
def process_parallel (detect : String → DetectionResult)
    (futureExn : String → Option String) (stopAt : Nat → Bool)
    (tickAt : Nat → ℚ) (start : ℚ) (completionOrder : List String)
    (pr : BatchProgress) : List DetectionResult × BatchProgress :=
  processLoop (parallelItem detect futureExn) stopAt tickAt start 0
    completionOrder pr

/-- `SpeciesDetector` state: its `is_initialized` flag
(`species_detector.py` line 66 / 132 / 138). -/
structure SpeciesDetectorState where
  is_initialized : Bool
deriving DecidableEq

/-- `BatchProcessor` attribute state (`batch_processor.py` lines 88-117),
with the source's initial values (`max_workers` defaults to 4,
`confidence_threshold` to the config default 0.5). -/
structure BatchProcessorState where
  detector : Option SpeciesDetectorState := none
  max_workers : Nat := 4
  confidence_threshold : ℚ := 1 / 2
  progress : Option BatchProgress := none
  is_running : Bool := false
  stop_requested : Bool := false
  results : List DetectionResult := []
  stats : Option ProcessingStats := none
deriving DecidableEq

/-- `SpeciesDetector.initialize` (`species_detector.py` lines 117-139).  Its
`try` body readies the external model; `readies` says whether that body ran
without raising (with the real SpeciesNet absent the body cannot fail, but
the model is external).  On success `is_initialized := true` and `true` is
returned; on an exception `is_initialized := false` and `false`. -/
def SpeciesDetector.initialize_detector (readies : Bool) : Bool × SpeciesDetectorState :=
  if readies then (true, { is_initialized := true })
  else (false, { is_initialized := false })

/-- `BatchProcessor.initialize` (`batch_processor.py` lines 119-133):
`self.detector = SpeciesDetector(self.config)` is assigned FIRST (the
constructor only sets fields and cannot fail), and only then is
`self.detector.initialize()` consulted; a `false` return propagates `false`
but leaves `self.detector` set. -/
def BatchProcessor.initialize_processor (st : BatchProcessorState)
    (detector_readies : Bool) : Bool × BatchProcessorState :=
  let r := SpeciesDetector.initialize_detector detector_readies
  (r.1, { st with detector := some r.2 })

/-- Environment of one `process_batch` run: per-path `detect_species`
environments, per-path parallel-future exceptions, the per-iteration reads
of the shared `stop_requested` flag, the wall-clock reads of the progress
updates, the order in which `as_completed` yields futures, the `time.time()`
reads at batch start (line 177), at statistics creation (line 334) and at
the final elapsed-time update (line 197), and the generated job id. -/
structure BatchEnv where
  env : String → PathEnv
  futureExn : String → Option String
  stopAt : Nat → Bool
  tickAt : Nat → ℚ
  completionOrder : List String
  start : ℚ
  statsTime : ℚ
  finish : ℚ
  job_id : String

/-- The per-item detection function a run uses (the `detect` closure of
`process_batch` / `_process_single_image`): `detect_species` on the engine's
detector with the configured confidence threshold, in the given per-path
environment. -/
def seqDetect (det : SpeciesDetectorState) (st : BatchProcessorState)
    (e : BatchEnv) : String → DetectionResult :=
  fun p => detect_species det.is_initialized st.confidence_threshold p (e.env p)

/-- `BatchProcessor.process_batch` (`batch_processor.py` lines 155-206).
If `self.detector` is `None` it raises at once, before any job or progress
object is created (line 166-167).  Otherwise it creates a fresh
`BatchProgress` with `total = len(image_paths)`, runs the sequential loop
when `max_workers == 1` and the parallel loop otherwise, generates the
statistics, patches `progress.elapsed_time`, and returns the collected
results.  The local result list is only returned, never written back to
`self.results` (which stays the empty list assigned at line 174). -/
def process_batch (st : BatchProcessorState) (e : BatchEnv)
    (image_paths : List String) :
    Except String (List DetectionResult × BatchProcessorState) :=
  match st.detector with
  | none => Except.error "BatchProcessor が初期化されていません"
  | some det =>
    let pr0 : BatchProgress := { job_id := e.job_id, total := image_paths.length }
    let detect := seqDetect det st e
    let rp :=
      if st.max_workers = 1 then
        process_sequential detect e.stopAt e.tickAt e.start image_paths pr0
      else
        process_parallel detect e.futureExn e.stopAt e.tickAt e.start
          e.completionOrder pr0
    Except.ok (rp.1,
      { st with
        progress := some { rp.2 with elapsed_time := e.finish - e.start },
        results := [], is_running := false, stop_requested := false,
        stats := some (generate_statistics rp.1 e.statsTime e.start) })

/-- `BatchProcessor.get_statistics` (lines 340-342):
`self.stats or ProcessingStats()` — the stored stats when set (a dataclass
instance is always truthy), else a default-constructed `ProcessingStats`. -/
def get_statistics (st : BatchProcessorState) : ProcessingStats :=
  st.stats.getD {}

/-- `BatchProcessor.cancel_processing` / `stop_processing` (lines 142-145,
344-347): set the shared `stop_requested` flag.  A run in progress observes
the flag through its per-iteration reads (`BatchEnv.stopAt`). -/
def cancel_processing (st : BatchProcessorState) : BatchProcessorState :=
  { st with stop_requested := true }

/-- `BatchProcessor.get_progress` (lines 349-351). -/
def get_progress (st : BatchProcessorState) : Option BatchProgress :=
  st.progress

/-- `BatchImageFinder.SUPPORTED_EXTENSIONS` (`batch_processor.py` line 384).
A Python set; its iteration order is irrelevant because `find_images` ends
with `sorted(list(set(...)))`. -/
def SUPPORTED_EXTENSIONS : List String :=
  [".jpg", ".jpeg", ".png", ".bmp", ".tiff", ".tif"]

/-- Case-sensitive suffix test on strings, as a test on their character
lists (the semantics of a POSIX `*{ext}` glob pattern on a file name:
`*` matches any — possibly empty — character sequence). -/
def strEndsWith (s suffix : String) : Bool :=
  suffix.data.isSuffixOf s.data

/-- Character-wise lowercasing of a string (Python `str.lower()`, on the
ASCII extensions involved here). -/
def strToLower (s : String) : String :=
  { data := s.data.map Char.toLower }

/-- Character-wise uppercasing of a string (Python `str.upper()`, on the
ASCII extensions involved here). -/
def strToUpper (s : String) : String :=
  { data := s.data.map Char.toUpper }

/-- One directory entry seen by `Path.glob` under the input directory:
the relative chain of sub-directories from the input directory to the
entry's parent (`[]` for a direct child), the entry's final name, and
whether `p.is_file()` holds (glob can also yield matching directories,
which line 416/420 filters out). -/
structure DirEntry where
  relDirs : List String
  name : String
  isFile : Bool
deriving DecidableEq

/-- `str(p)` for a globbed entry: the input directory joined with the
relative components. -/
def entryPath (root : String) (e : DirEntry) : String :=
  root ++ "/" ++ String.intercalate "/" (e.relDirs ++ [e.name])

/-- Whether `path.glob(f"{pattern}{ext}")` yields the entry, for
`pattern = "**/*"` (recursive) or `"*"`: the entry must be at the right
depth and its name must end with the literal, case-sensitive suffix `ext`
(POSIX glob matching is case-sensitive). -/
def globMatches (recursive : Bool) (ext : String) (e : DirEntry) : Bool :=
  (recursive || e.relDirs.isEmpty) && strEndsWith e.name ext

/-- `BatchImageFinder.find_images` on a directory input
(`batch_processor.py` lines 406-423): for each supported extension, glob
`{pattern}{ext}` and `{pattern}{ext.upper()}` keeping only files, then
`sorted(list(set(image_paths)))` — deduplicate and sort ascending. -/
def find_images_dir (root : String) (entries : List DirEntry)
    (recursive : Bool) : List String :=
  let image_paths :=
    SUPPORTED_EXTENSIONS.foldl (fun acc ext =>
      acc ++
        ((entries.filter (fun e => e.isFile && globMatches recursive ext e)).map
          (entryPath root)) ++
        ((entries.filter
            (fun e => e.isFile && globMatches recursive (strToUpper ext) e)).map
          (entryPath root))) []
  List.insertionSort (· ≤ ·) image_paths.dedup

/-- `BatchImageFinder.find_images` on a single-file input (lines 402-405):
kept iff `path.suffix.lower()` is a supported extension (`suffix` is the
file's extension as pathlib computes it, supplied by the environment). -/
def find_images_file (path suffix : String) : List String :=
  if SUPPORTED_EXTENSIONS.contains (strToLower suffix) then [path] else []

/-- Modelled from the spec: the claim's matcher for the directory walk — an
entry should be returned iff it is a file at the right depth whose extension
matches the supported set case-insensitively, i.e. with ANY mixture of upper
and lower case letters.  Written from the claim's words, for comparison with
the source's `globMatches`. -/
def specCaseInsensitiveMatch (recursive : Bool) (e : DirEntry) : Bool :=
  e.isFile && (recursive || e.relDirs.isEmpty) &&
    SUPPORTED_EXTENSIONS.any (fun ext => strEndsWith (strToLower e.name) ext)

/-! ## Supporting lemmas -/

/-- The invariant of §3 of the spec on a progress snapshot. -/
def ProgressInv (p : BatchProgress) : Prop :=
  p.processed = p.success + p.failed ∧ p.processed ≤ p.total

/-- The per-item update events of a collected result list: the `k`-th result
updates the counters with its success flag at wall-clock time `tickAt (i+k)`. -/
def resultEvents (tickAt : Nat → ℚ) : Nat → List DetectionResult → List (Bool × ℚ)
  | _, [] => []
  | i, r :: rs => (r.success, tickAt i) :: resultEvents tickAt (i + 1) rs

theorem progressAfter_nil (pr : BatchProgress) (start : ℚ) :
    progressAfter pr [] start = pr := rfl

theorem progressAfter_cons (pr : BatchProgress) (ev : Bool × ℚ)
    (rest : List (Bool × ℚ)) (start : ℚ) :
    progressAfter pr (ev :: rest) start =
      progressAfter (update_progress_counts pr ev.1 ev.2 start) rest start := rfl

theorem progressAfter_processed (start : ℚ) (events : List (Bool × ℚ)) :
    ∀ pr : BatchProgress,
      (progressAfter pr events start).processed = pr.processed + events.length := by
  induction events with
  | nil => intro pr; simp [progressAfter]
  | cons ev rest ih =>
    intro pr
    rw [progressAfter_cons, ih]
    simp [update_progress_counts]
    omega

theorem progressAfter_total (start : ℚ) (events : List (Bool × ℚ)) :
    ∀ pr : BatchProgress, (progressAfter pr events start).total = pr.total := by
  induction events with
  | nil => intro pr; simp [progressAfter]
  | cons ev rest ih =>
    intro pr
    rw [progressAfter_cons, ih]
    simp [update_progress_counts]

theorem progressAfter_success (start : ℚ) (events : List (Bool × ℚ)) :
    ∀ pr : BatchProgress,
      (progressAfter pr events start).success =
        pr.success + events.countP (fun x => x.1) := by
  induction events with
  | nil => intro pr; simp [progressAfter]
  | cons ev rest ih =>
    intro pr
    rw [progressAfter_cons, ih]
    rcases ev with ⟨b, t⟩
    cases b <;> simp [update_progress_counts, List.countP_cons] <;> omega

theorem progressAfter_failed (start : ℚ) (events : List (Bool × ℚ)) :
    ∀ pr : BatchProgress,
      (progressAfter pr events start).failed =
        pr.failed + events.countP (fun x => !x.1) := by
  induction events with
  | nil => intro pr; simp [progressAfter]
  | cons ev rest ih =>
    intro pr
    rw [progressAfter_cons, ih]
    rcases ev with ⟨b, t⟩
    cases b <;> simp [update_progress_counts, List.countP_cons] <;> omega

theorem resultEvents_length (tickAt : Nat → ℚ) :
    ∀ (i : Nat) (rs : List DetectionResult),
      (resultEvents tickAt i rs).length = rs.length := by
  intro i rs
  induction rs generalizing i with
  | nil => rfl
  | cons r rest ih => simp [resultEvents, ih]

theorem resultEvents_countP (tickAt : Nat → ℚ) (q : Bool → Bool) :
    ∀ (i : Nat) (rs : List DetectionResult),
      (resultEvents tickAt i rs).countP (fun x => q x.1) =
        rs.countP (fun r => q r.success) := by
  intro i rs
  induction rs generalizing i with
  | nil => rfl
  | cons r rest ih => simp [resultEvents, List.countP_cons, ih]

theorem processLoop_nil (detect : String → DetectionResult) (stopAt : Nat → Bool)
    (tickAt : Nat → ℚ) (start : ℚ) (i : Nat) (pr : BatchProgress) :
    processLoop detect stopAt tickAt start i [] pr = ([], pr) := rfl

theorem processLoop_cons (detect : String → DetectionResult) (stopAt : Nat → Bool)
    (tickAt : Nat → ℚ) (start : ℚ) (i : Nat) (p : String) (rest : List String)
    (pr : BatchProgress) :
    processLoop detect stopAt tickAt start i (p :: rest) pr =
      if stopAt i then ([], pr)
      else
        let rp := processLoop detect stopAt tickAt start (i + 1) rest
          (update_progress_counts pr (detect p).success (tickAt i) start)
        ((detect p) :: rp.1, rp.2) := rfl

/-- With the stop flag never observed, the loop produces one result per
path, in order, each obtained from `detect`. -/
theorem processLoop_results_nostop (detect : String → DetectionResult)
    (stopAt : Nat → Bool) (tickAt : Nat → ℚ) (start : ℚ)
    (h : ∀ i, stopAt i = false) (ps : List String) :
    ∀ (i : Nat) (pr : BatchProgress),
      (processLoop detect stopAt tickAt start i ps pr).1 = ps.map detect := by
  induction ps with
  | nil => intro i pr; rfl
  | cons p rest ih =>
    intro i pr
    rw [processLoop_cons]
    simp [h i, ih]

theorem processLoop_length_le (detect : String → DetectionResult)
    (stopAt : Nat → Bool) (tickAt : Nat → ℚ) (start : ℚ) (ps : List String) :
    ∀ (i : Nat) (pr : BatchProgress),
      ((processLoop detect stopAt tickAt start i ps pr).1).length ≤ ps.length := by
  induction ps with
  | nil => intro i pr; simp [processLoop_nil]
  | cons p rest ih =>
    intro i pr
    rw [processLoop_cons]
    split
    · simp
    · simpa using ih (i + 1) _

/-- If the stop flag is observed set at iteration `k`, the loop started at
index `i ≤ k` collects at most `k - i` results. -/
theorem processLoop_length_of_stop (detect : String → DetectionResult)
    (stopAt : Nat → Bool) (tickAt : Nat → ℚ) (start : ℚ) (k : Nat)
    (hk : stopAt k = true) (ps : List String) :
    ∀ (i : Nat) (pr : BatchProgress), i ≤ k →
      ((processLoop detect stopAt tickAt start i ps pr).1).length ≤ k - i := by
  induction ps with
  | nil => intro i pr _; simp [processLoop_nil]
  | cons p rest ih =>
    intro i pr hik
    rw [processLoop_cons]
    split
    · simp
    · rename_i hstop
      have hik' : i < k := by
        rcases Nat.lt_or_ge i k with h | h
        · exact h
        · have : i = k := Nat.le_antisymm hik h
          rw [this] at hstop
          exact absurd hk hstop
      have := ih (i + 1) (update_progress_counts pr (detect p).success (tickAt i) start) hik'
      simp only [List.length_cons]
      omega

/-- The progress object threaded through the loop equals the progress
obtained by replaying the update events of the collected results. -/
theorem processLoop_progress (detect : String → DetectionResult)
    (stopAt : Nat → Bool) (tickAt : Nat → ℚ) (start : ℚ) (ps : List String) :
    ∀ (i : Nat) (pr : BatchProgress),
      (processLoop detect stopAt tickAt start i ps pr).2 =
        progressAfter pr
          (resultEvents tickAt i (processLoop detect stopAt tickAt start i ps pr).1)
          start := by
  induction ps with
  | nil => intro i pr; rfl
  | cons p rest ih =>
    intro i pr
    rw [processLoop_cons]
    split
    · rfl
    · simp only [resultEvents, progressAfter_cons]
      exact ih (i + 1) _

theorem detect_species_image_path (b : Bool) (thr : ℚ) (p : String)
    (env : PathEnv) : (detect_species b thr p env).image_path = p := by
  rcases env with ⟨fe, il, rd, du⟩
  cases b <;> cases fe <;> cases il <;> rfl

theorem detect_species_success_eq (b : Bool) (thr : ℚ) (p : String)
    (env : PathEnv) :
    (detect_species b thr p env).success = !detectFails b env := by
  rcases env with ⟨fe, il, rd, du⟩
  cases b <;> cases fe <;> cases il <;> rfl

theorem string_append_ne_empty (a b : String) (ha : a.length ≠ 0) :
    a ++ b ≠ "" := by
  intro h
  have hlen : (a ++ b).length = ("" : String).length := congrArg String.length h
  rw [String.length_append] at hlen
  have hz : ("" : String).length = 0 := rfl
  omega

theorem detect_species_error_nonempty (b : Bool) (thr : ℚ) (p : String)
    (env : PathEnv) (h : detectFails b env = true) :
    (detect_species b thr p env).error_message ≠ "" := by
  rcases env with ⟨fe, il, rd, du⟩
  cases b <;> cases fe <;> cases il <;>
    simp_all [detectFails, detect_species] <;>
    first
      | decide
      | exact string_append_ne_empty _ _ (by decide)

theorem parallelItem_image_path (detect : String → DetectionResult)
    (futureExn : String → Option String) (p : String)
    (h : (detect p).image_path = p) :
    (parallelItem detect futureExn p).image_path = p := by
  unfold parallelItem
  cases futureExn p <;> simp [h]

theorem statsStep_time (acc : StatsAcc) (r : DetectionResult) :
    (statsStep acc r).total_processing_time =
      acc.total_processing_time + r.processing_time := by
  unfold statsStep
  split <;> rfl

theorem statsAcc_time (results : List DetectionResult) :
    ∀ acc : StatsAcc,
      (results.foldl statsStep acc).total_processing_time =
        acc.total_processing_time +
          (results.map (fun r => r.processing_time)).sum := by
  induction results with
  | nil => intro acc; simp
  | cons r rest ih =>
    intro acc
    simp only [List.foldl_cons, List.map_cons, List.sum_cons]
    rw [ih, statsStep_time]
    ring

/-- A concrete run environment for the closed instantiations below: every
file exists and loads, the classifier returns no detections, no future
raises, the stop flag is never observed set, and all clock reads are 0. -/
def trivialEnv : BatchEnv :=
  { env := fun _ =>
      { fileExists := true, imageLoads := true, rawDetections := [], duration := 0 }
    futureExn := fun _ => none
    stopAt := fun _ => false
    tickAt := fun _ => 0
    completionOrder := []
    start := 0, statsTime := 0, finish := 0, job_id := "batch_0" }

/-- The list the collection loop of a run iterates over: the input paths in
input order at `max_workers == 1`, the futures' completion order otherwise. -/
def dispatchList (st : BatchProcessorState) (e : BatchEnv)
    (image_paths : List String) : List String :=
  if st.max_workers = 1 then image_paths else e.completionOrder

/-- The effective per-item result function of a run: plain `detect_species`
sequentially, and the `future.result()` wrapper (`parallelItem`) in the
parallel mode. -/
def itemFn (det : SpeciesDetectorState) (st : BatchProcessorState)
    (e : BatchEnv) : String → DetectionResult :=
  if st.max_workers = 1 then seqDetect det st e
  else parallelItem (seqDetect det st e) e.futureExn

/-- On an initialized engine, `process_batch` is the collection loop over the
dispatch list followed by statistics generation and the final elapsed-time
patch. -/
theorem process_batch_eq (st : BatchProcessorState) (e : BatchEnv)
    (image_paths : List String) (det : SpeciesDetectorState)
    (hdet : st.detector = some det) :
    process_batch st e image_paths =
      (let rp := processLoop (itemFn det st e) e.stopAt e.tickAt e.start 0
        (dispatchList st e image_paths)
        { job_id := e.job_id, total := image_paths.length };
      Except.ok (rp.1,
        { st with
          progress := some { rp.2 with elapsed_time := e.finish - e.start },
          results := [], is_running := false, stop_requested := false,
          stats := some (generate_statistics rp.1 e.statsTime e.start) })) := by
  by_cases hW : st.max_workers = 1 <;>
    simp [process_batch, hdet, hW, itemFn, dispatchList,
      process_sequential, process_parallel]

theorem itemFn_image_path (det : SpeciesDetectorState)
    (st : BatchProcessorState) (e : BatchEnv) (p : String) :
    (itemFn det st e p).image_path = p := by
  unfold itemFn
  split
  · exact detect_species_image_path _ _ _ _
  · exact parallelItem_image_path _ _ _ (detect_species_image_path _ _ _ _)

theorem itemFn_eq_seqDetect (det : SpeciesDetectorState)
    (st : BatchProcessorState) (e : BatchEnv)
    (hnoexn : ∀ p, e.futureExn p = none) :
    itemFn det st e = seqDetect det st e := by
  funext p
  unfold itemFn
  split
  · rfl
  · unfold parallelItem
    rw [hnoexn p]

theorem itemFn_success_false_of_uninit (det : SpeciesDetectorState)
    (st : BatchProcessorState) (e : BatchEnv) (p : String)
    (h : det.is_initialized = false) :
    (itemFn det st e p).success = false := by
  have hseq : (seqDetect det st e p).success = false := by
    rw [seqDetect, detect_species_success_eq, h]
    rfl
  unfold itemFn
  split
  · exact hseq
  · unfold parallelItem
    cases e.futureExn p
    · exact hseq
    · rfl

theorem processLoop_results_mem (detect : String → DetectionResult)
    (stopAt : Nat → Bool) (tickAt : Nat → ℚ) (start : ℚ) (ps : List String) :
    ∀ (i : Nat) (pr : BatchProgress) (r : DetectionResult),
      r ∈ (processLoop detect stopAt tickAt start i ps pr).1 →
        ∃ p ∈ ps, r = detect p := by
  induction ps with
  | nil => intro i pr r hr; simp [processLoop_nil] at hr
  | cons p rest ih =>
    intro i pr r hr
    rw [processLoop_cons] at hr
    split at hr
    · simp at hr
    · simp only [List.mem_cons] at hr
      rcases hr with hr | hr
      · exact ⟨p, List.mem_cons_self _ _, hr⟩
      · obtain ⟨q, hq, hrq⟩ := ih (i + 1) _ r hr
        exact ⟨q, List.mem_cons_of_mem _ hq, hrq⟩

theorem map_eq_imp_get {α β : Type} (f : α → β) (l : List α) (m : List β)
    (h : l.map f = m) (i : Nat) (hl : i < l.length) (hm : i < m.length) :
    f (l.get ⟨i, hl⟩) = m.get ⟨i, hm⟩ := by
  subst h
  simp

/-! ## Claims -/

/-- Claim C3 counterexample: `_generate_statistics` stamps
`processing_time = time.time() - self._start_time` at the moment of the
call (line 334), so two calls on the same unchanged result list made at
different wall-clock instants do NOT yield identical `ProcessingStats`:
the claim, which asks for every field equal including `processing_time`,
fails already on the empty result list with the two calls at instants
0 and 1. -/
theorem C3_counterexample :
    ¬ (∀ (results : List DetectionResult) (start t t' : ℚ),
        generate_statistics results t start =
          generate_statistics results t' start) := by
  intro h
  have h1 := congrArg ProcessingStats.processing_time (h [] 0 0 1)
  norm_num [generate_statistics] at h1

/-- Claim C3 (amended): calling `_generate_statistics` twice on the same
unchanged result list yields `ProcessingStats` values identical in every
field EXCEPT `processing_time`, which is the wall-clock elapsed time
(call instant minus batch start) of each call; in particular calls at the
same instant yield fully identical values.  Everything else —
`average_time_per_image`, counts and both tally maps — is a pure function
of the result list. -/
theorem C3_statistics_idempotent (results : List DetectionResult)
    (start t t' : ℚ) :
    generate_statistics results t' start =
      { generate_statistics results t start with
        processing_time := t' - start } := by
  simp [generate_statistics]

/-- Modelled from the spec: the average the claim describes, computed over
only the results whose processing duration is positive, with 0 when no
valid sample remains.  Written from the claim's words, for comparison with
the source's `_generate_statistics`. -/
def specAverageTime (results : List DetectionResult) : ℚ :=
  let valid := results.filter (fun r => 0 < r.processing_time)
  if valid.isEmpty then 0
  else (valid.map (fun r => r.processing_time)).sum / (valid.length : ℚ)

/-- Claim C4 counterexample: the source divides by `len(results)`
(line 335), NOT by the number of results with positive duration.  On two
successful results with durations 0 and 2 the code yields `2 / 2 = 1`
while the claimed positive-duration-only denominator yields `2 / 1 = 2`. -/
theorem C4_counterexample :
    ¬ (∀ (results : List DetectionResult) (now start : ℚ),
        (generate_statistics results now start).average_time_per_image =
          specAverageTime results) := by
  intro h
  have h1 := h
    [{ image_path := "a", detections := [], processing_time := 0,
       success := true, error_message := "" },
     { image_path := "b", detections := [], processing_time := 2,
       success := true, error_message := "" }] 0 0
  norm_num [generate_statistics, specAverageTime, statsStep,
    List.foldl_cons, List.foldl_nil, List.filter] at h1

/-- Claim C4 (amended): the aggregated average per-item duration is the sum
of ALL results' `processing_time` divided by the TOTAL number of results —
every result counts in the denominator, whether its duration is positive or
not — and on an empty result list the average is 0 rather than an error. -/
theorem C4_average_denominator (results : List DetectionResult)
    (now start : ℚ) :
    (generate_statistics results now start).average_time_per_image =
      if results.isEmpty then 0
      else (results.map (fun r => r.processing_time)).sum /
        (results.length : ℚ) := by
  simp [generate_statistics, statsAcc_time]

/-- Claim C10: `get_statistics` never returns an absent value — in the
source it is `self.stats or ProcessingStats()`, and the model's return type
is a plain `ProcessingStats` — and on any state whose `stats` field is still
unset (the freshly constructed processor, and the processor after
`initialize` but before any batch) it returns the default-constructed
`ProcessingStats`: all counts zero, both durations 0, and both per-species
and per-error maps empty. -/
theorem C10_get_statistics_default (st : BatchProcessorState)
    (h : st.stats = none) :
    get_statistics st =
      { total_images := 0, processed_images := 0, successful_detections := 0,
        failed_detections := 0, total_detections := 0, processing_time := 0,
        average_time_per_image := 0, species_counts := [],
        error_counts := [] } := by
  simp [get_statistics, h]

/-- Claim C10 witness: the fresh processor state, and the state right after
`initialize`, have no stats yet, and `get_statistics` returns the all-zero
default on them. -/
theorem C10_witness :
    ({} : BatchProcessorState).stats = none ∧
    get_statistics {} =
      { total_images := 0, processed_images := 0, successful_detections := 0,
        failed_detections := 0, total_detections := 0, processing_time := 0,
        average_time_per_image := 0, species_counts := [],
        error_counts := [] } ∧
    get_statistics (BatchProcessor.initialize_processor {} true).2 =
      { total_images := 0, processed_images := 0, successful_detections := 0,
        failed_detections := 0, total_detections := 0, processing_time := 0,
        average_time_per_image := 0, species_counts := [],
        error_counts := [] } :=
  ⟨rfl, C10_get_statistics_default {} rfl,
    C10_get_statistics_default (BatchProcessor.initialize_processor {} true).2 rfl⟩

/-- A concrete one-path environment (completion order `["a"]`) for the
closed instantiations below. -/
def envA : BatchEnv := { trivialEnv with completionOrder := ["a"] }

/-- A concrete initialized processor state in sequential mode
(`max_workers = 1`) for the closed instantiations below. -/
def stSeq : BatchProcessorState :=
  { detector := some { is_initialized := true }, max_workers := 1 }

/-- Claim C2: on every non-cancelled run of `process_batch` (the stop flag
is never observed set; in parallel mode `as_completed` yields every future,
in some permutation of the inputs), the returned list has exactly one
`DetectionResult` per input path — no path dropped, none duplicated — and
the multiset of the results' source paths equals the multiset of the input
paths (`List.Perm`). -/
theorem C2_result_completeness (st : BatchProcessorState) (e : BatchEnv)
    (image_paths : List String) (det : SpeciesDetectorState)
    (hdet : st.detector = some det)
    (hnostop : ∀ i, e.stopAt i = false)
    (hperm : e.completionOrder.Perm image_paths) :
    ∃ rs st', process_batch st e image_paths = Except.ok (rs, st') ∧
      rs.length = image_paths.length ∧
      (rs.map (fun r => r.image_path)).Perm image_paths := by
  rw [process_batch_eq st e image_paths det hdet]
  refine ⟨_, _, rfl, ?_, ?_⟩ <;>
    rw [processLoop_results_nostop _ _ _ _ hnostop]
  · have hlen : (dispatchList st e image_paths).length = image_paths.length := by
      unfold dispatchList
      split
      · rfl
      · exact hperm.length_eq
    simp [hlen]
  · have hmap :
        (List.map (itemFn det st e) (dispatchList st e image_paths)).map
          (fun r => r.image_path) = dispatchList st e image_paths := by
      rw [List.map_map]
      have hcomp : ((fun r : DetectionResult => r.image_path) ∘ itemFn det st e)
          = id := funext fun p => itemFn_image_path det st e p
      rw [hcomp, List.map_id]
    rw [hmap]
    unfold dispatchList
    split
    · exact List.Perm.refl _
    · exact hperm

/-- Claim C2 witness: a concrete one-path run through the parallel mode
(`max_workers = 4`). -/
theorem C2_witness :
    ∃ rs st',
      process_batch { detector := some { is_initialized := true } } envA ["a"]
        = Except.ok (rs, st') ∧
      rs.length = (["a"] : List String).length ∧
      (rs.map (fun r => r.image_path)).Perm ["a"] :=
  C2_result_completeness _ envA ["a"] { is_initialized := true } rfl
    (fun _ => rfl) (List.Perm.refl _)

/-- Claim C8: at `max_workers == 1` a non-cancelled run returns its results
exactly in input order: the list of the results' source paths IS the input
list, and hence for every index `i` the `i`-th result's source path is the
`i`-th input path. -/
theorem C8_sequential_order (st : BatchProcessorState) (e : BatchEnv)
    (image_paths : List String) (det : SpeciesDetectorState)
    (hdet : st.detector = some det) (hW : st.max_workers = 1)
    (hnostop : ∀ i, e.stopAt i = false) :
    ∃ rs st', process_batch st e image_paths = Except.ok (rs, st') ∧
      rs.map (fun r => r.image_path) = image_paths ∧
      ∀ (i : Nat) (hr : i < rs.length) (hi : i < image_paths.length),
        (rs.get ⟨i, hr⟩).image_path = image_paths.get ⟨i, hi⟩ := by
  rw [process_batch_eq st e image_paths det hdet]
  refine ⟨_, _, rfl, ?_⟩
  have hd : dispatchList st e image_paths = image_paths := by
    unfold dispatchList
    rw [if_pos hW]
  have hmap :
      ((processLoop (itemFn det st e) e.stopAt e.tickAt e.start 0
          (dispatchList st e image_paths)
          { job_id := e.job_id, total := image_paths.length }).1).map
        (fun r => r.image_path) = image_paths := by
    rw [processLoop_results_nostop _ _ _ _ hnostop, List.map_map]
    have hcomp : ((fun r : DetectionResult => r.image_path) ∘ itemFn det st e)
        = id := funext fun p => itemFn_image_path det st e p
    rw [hcomp, List.map_id, hd]
  exact ⟨hmap, fun i hr hi => map_eq_imp_get _ _ _ hmap i hr hi⟩

/-- Claim C8 witness: a concrete two-path sequential run. -/
theorem C8_witness :
    ∃ rs st',
      process_batch stSeq trivialEnv ["b", "a"] = Except.ok (rs, st') ∧
      rs.map (fun r => r.image_path) = ["b", "a"] ∧
      ∀ (i : Nat) (hr : i < rs.length)
        (hi : i < (["b", "a"] : List String).length),
        (rs.get ⟨i, hr⟩).image_path = (["b", "a"] : List String).get ⟨i, hi⟩ :=
  C8_sequential_order stSeq trivialEnv ["b", "a"] { is_initialized := true }
    rfl rfl (fun _ => rfl)

theorem elapsed_patch_processed (p : BatchProgress) (t : ℚ) :
    ({ p with elapsed_time := t }).processed = p.processed := rfl

theorem elapsed_patch_total (p : BatchProgress) (t : ℚ) :
    ({ p with elapsed_time := t }).total = p.total := rfl

theorem elapsed_patch_failed (p : BatchProgress) (t : ℚ) :
    ({ p with elapsed_time := t }).failed = p.failed := rfl

/-- The elapsed-time patch at the end of `process_batch` does not touch the
counters, so it preserves the progress invariant. -/
theorem ProgressInv_elapsed_patch (p : BatchProgress) (t : ℚ)
    (h : ProgressInv p) : ProgressInv { p with elapsed_time := t } := h

/-- Replaying at most `total` update events from a fresh progress object
yields a snapshot satisfying the §3 invariant. -/
theorem ProgressInv_progressAfter (jid : String) (total : Nat)
    (events : List (Bool × ℚ)) (start : ℚ) (h : events.length ≤ total) :
    ProgressInv
      (progressAfter { job_id := jid, total := total } events start) := by
  constructor
  · rw [progressAfter_processed, progressAfter_success, progressAfter_failed]
    have hcount := List.length_eq_countP_add_countP
      (fun x : Bool × ℚ => x.1) events
    simp at hcount ⊢
    omega
  · rw [progressAfter_processed, progressAfter_total]
    simpa using h

/-- Claim C1: every `_update_progress_counts` call increments `processed` by
one together with exactly one of `success` / `failed`, and on every run of
`process_batch` every progress snapshot observable during the run (the state
after any prefix of the per-item updates) and the final stored progress
satisfy `processed = success + failed` and `processed ≤ total`. -/
theorem C1_progress_invariant (st : BatchProcessorState) (e : BatchEnv)
    (image_paths : List String) (det : SpeciesDetectorState)
    (hdet : st.detector = some det)
    (hperm : e.completionOrder.Perm image_paths) :
    (∀ (p : BatchProgress) (b : Bool) (now start : ℚ),
        (update_progress_counts p b now start).processed = p.processed + 1 ∧
        (update_progress_counts p b now start).success +
            (update_progress_counts p b now start).failed =
          p.success + p.failed + 1 ∧
        (b = true →
          (update_progress_counts p b now start).success = p.success + 1 ∧
          (update_progress_counts p b now start).failed = p.failed) ∧
        (b = false →
          (update_progress_counts p b now start).success = p.success ∧
          (update_progress_counts p b now start).failed = p.failed + 1)) ∧
    ∃ rs st', process_batch st e image_paths = Except.ok (rs, st') ∧
      (∀ k, ProgressInv
        (progressAfter { job_id := e.job_id, total := image_paths.length }
          ((resultEvents e.tickAt 0 rs).take k) e.start)) ∧
      ∃ prF, st'.progress = some prF ∧ ProgressInv prF := by
  have hdlen : (dispatchList st e image_paths).length = image_paths.length := by
    unfold dispatchList
    split
    · rfl
    · exact hperm.length_eq
  constructor
  · intro p b now start
    cases b <;> simp [update_progress_counts] <;> omega
  · rw [process_batch_eq st e image_paths det hdet]
    have hrslen :
        ((processLoop (itemFn det st e) e.stopAt e.tickAt e.start 0
          (dispatchList st e image_paths)
          { job_id := e.job_id, total := image_paths.length }).1).length ≤
          image_paths.length := by
      calc ((processLoop (itemFn det st e) e.stopAt e.tickAt e.start 0
            (dispatchList st e image_paths)
            { job_id := e.job_id, total := image_paths.length }).1).length
          ≤ (dispatchList st e image_paths).length :=
            processLoop_length_le _ _ _ _ _ _ _
        _ = image_paths.length := hdlen
    refine ⟨_, _, rfl, ?_, ?_⟩
    · intro k
      apply ProgressInv_progressAfter
      calc ((resultEvents e.tickAt 0 _).take k).length
          ≤ (resultEvents e.tickAt 0 _).length := by
            rw [List.length_take]
            exact Nat.min_le_right _ _
        _ ≤ image_paths.length := by
            rw [resultEvents_length]
            exact hrslen
    · refine ⟨_, rfl, ?_⟩
      apply ProgressInv_elapsed_patch
      rw [processLoop_progress]
      apply ProgressInv_progressAfter
      rw [resultEvents_length]
      exact hrslen

/-- Claim C1 witness: the concrete sequential one-path run, with part (a)
instantiated at a concrete progress record and update. -/
theorem C1_witness :
    ((update_progress_counts { job_id := "j" } true 1 0).processed =
        ({ job_id := "j" } : BatchProgress).processed + 1 ∧
      (update_progress_counts { job_id := "j" } true 1 0).success +
          (update_progress_counts { job_id := "j" } true 1 0).failed =
        ({ job_id := "j" } : BatchProgress).success +
          ({ job_id := "j" } : BatchProgress).failed + 1 ∧
      (true = true →
        (update_progress_counts { job_id := "j" } true 1 0).success =
          ({ job_id := "j" } : BatchProgress).success + 1 ∧
        (update_progress_counts { job_id := "j" } true 1 0).failed =
          ({ job_id := "j" } : BatchProgress).failed) ∧
      (true = false →
        (update_progress_counts { job_id := "j" } true 1 0).success =
          ({ job_id := "j" } : BatchProgress).success ∧
        (update_progress_counts { job_id := "j" } true 1 0).failed =
          ({ job_id := "j" } : BatchProgress).failed + 1)) ∧
    ∃ rs st', process_batch stSeq envA ["a"] = Except.ok (rs, st') ∧
      (∀ k, ProgressInv
        (progressAfter { job_id := envA.job_id, total := (["a"] : List String).length }
          ((resultEvents envA.tickAt 0 rs).take k) envA.start)) ∧
      ∃ prF, st'.progress = some prF ∧ ProgressInv prF :=
  ⟨(C1_progress_invariant stSeq envA ["a"] { is_initialized := true } rfl
      (List.Perm.refl _)).1 { job_id := "j" } true 1 0,
    (C1_progress_invariant stSeq envA ["a"] { is_initialized := true } rfl
      (List.Perm.refl _)).2⟩

/-- Claim C5: every input path whose classification reports an error (one of
the raises caught inside `detect_species` fires) gets a `DetectionResult`
with `success = false` and a non-empty error description recorded for it,
the failure is counted in the `failed` counter, and the batch still
processes every other dispatched path — one result per dispatched path, so
a single item's failure never aborts `process_batch`. -/
theorem C5_item_failure_isolated (st : BatchProcessorState) (e : BatchEnv)
    (image_paths : List String) (det : SpeciesDetectorState)
    (hdet : st.detector = some det)
    (hnostop : ∀ i, e.stopAt i = false)
    (hnoexn : ∀ p, e.futureExn p = none) :
    ∃ rs st', process_batch st e image_paths = Except.ok (rs, st') ∧
      rs = (dispatchList st e image_paths).map (seqDetect det st e) ∧
      (∀ p ∈ dispatchList st e image_paths,
        detectFails det.is_initialized (e.env p) = true →
          (seqDetect det st e p).success = false ∧
          (seqDetect det st e p).error_message ≠ "" ∧
          seqDetect det st e p ∈ rs) ∧
      ∃ prF, st'.progress = some prF ∧
        prF.failed = rs.countP (fun r => !r.success) ∧
        prF.processed = rs.length := by
  rw [process_batch_eq st e image_paths det hdet]
  have hres :
      (processLoop (itemFn det st e) e.stopAt e.tickAt e.start 0
        (dispatchList st e image_paths)
        { job_id := e.job_id, total := image_paths.length }).1 =
      (dispatchList st e image_paths).map (seqDetect det st e) := by
    rw [processLoop_results_nostop _ _ _ _ hnostop,
      itemFn_eq_seqDetect det st e hnoexn]
  refine ⟨_, _, rfl, hres, ?_, ?_⟩
  · intro p hp hfail
    refine ⟨?_, detect_species_error_nonempty _ _ _ _ hfail, ?_⟩
    · rw [seqDetect, detect_species_success_eq, hfail]
      rfl
    · rw [hres]
      exact List.mem_map_of_mem _ hp
  · refine ⟨_, rfl, ?_, ?_⟩
    · rw [elapsed_patch_failed, processLoop_progress, progressAfter_failed,
        resultEvents_countP]
      simp
    · rw [elapsed_patch_processed, processLoop_progress,
        progressAfter_processed, resultEvents_length]
      simp

/-- A concrete one-path environment whose single file does not exist, so
`detect_species` reports an error for it. -/
def failEnv : BatchEnv :=
  { trivialEnv with
    env := fun _ =>
      { fileExists := false, imageLoads := true, rawDetections := [],
        duration := 0 }
    completionOrder := ["a"] }

/-- Claim C5 witness: a concrete sequential run on one missing file. -/
theorem C5_witness :
    ∃ rs st', process_batch stSeq failEnv ["a"] = Except.ok (rs, st') ∧
      rs = (dispatchList stSeq failEnv ["a"]).map
        (seqDetect { is_initialized := true } stSeq failEnv) ∧
      (∀ p ∈ dispatchList stSeq failEnv ["a"],
        detectFails true (failEnv.env p) = true →
          (seqDetect { is_initialized := true } stSeq failEnv p).success = false ∧
          (seqDetect { is_initialized := true } stSeq failEnv p).error_message ≠ "" ∧
          seqDetect { is_initialized := true } stSeq failEnv p ∈ rs) ∧
      ∃ prF, st'.progress = some prF ∧
        prF.failed = rs.countP (fun r => !r.success) ∧
        prF.processed = rs.length :=
  C5_item_failure_isolated stSeq failEnv ["a"] { is_initialized := true }
    rfl (fun _ => rfl) (fun _ => rfl)

/-- Claim C6 counterexample: a `false` return from `initialize` does NOT
leave `process_batch` unusable.  `BatchProcessor.initialize` assigns
`self.detector` before consulting the detector's own initialization, so after a
failed initialization `self.detector` is set and the guard at line 166 does
not fire: `process_batch` does not raise. -/
theorem C6_counterexample :
    ¬ (∀ (st0 : BatchProcessorState) (e : BatchEnv)
        (image_paths : List String),
        (BatchProcessor.initialize_processor st0 false).1 = false →
          ∃ msg, process_batch (BatchProcessor.initialize_processor st0 false).2
            e image_paths = Except.error msg) := by
  intro h
  obtain ⟨msg, hmsg⟩ := h {} trivialEnv [] rfl
  rw [process_batch_eq _ trivialEnv [] { is_initialized := false } rfl] at hmsg
  simp at hmsg

/-- Claim C6 (amended): `process_batch` raises immediately — producing no
result and creating no progress object — exactly when `initialize` was never
called (`self.detector` is still `None`).  When `initialize` WAS called but
returned `false` because the detector could not be readied, `self.detector`
is nevertheless set, so `process_batch` starts anyway: it returns normally,
a progress object is created, and every produced result is a per-item
failure (`success = false`). -/
theorem C6_initialize_gate (st : BatchProcessorState) (e : BatchEnv)
    (image_paths : List String) :
    (st.detector = none →
      process_batch st e image_paths =
        Except.error "BatchProcessor が初期化されていません") ∧
    (∀ st0 : BatchProcessorState,
      st = (BatchProcessor.initialize_processor st0 false).2 →
      ∃ rs st', process_batch st e image_paths = Except.ok (rs, st') ∧
        st'.progress ≠ none ∧
        ∀ r ∈ rs, r.success = false) := by
  constructor
  · intro h
    simp [process_batch, h]
  · intro st0 hst
    subst hst
    rw [process_batch_eq _ e image_paths { is_initialized := false } rfl]
    refine ⟨_, _, rfl, by simp, ?_⟩
    intro r hr
    obtain ⟨p, _, hrp⟩ := processLoop_results_mem _ _ _ _ _ _ _ _ hr
    rw [hrp]
    exact itemFn_success_false_of_uninit _ _ _ _ rfl

/-- Claim C6 witness: the fresh processor raises; the processor whose
`initialize` returned `false` runs to completion. -/
theorem C6_witness :
    process_batch {} trivialEnv [] =
      Except.error "BatchProcessor が初期化されていません" ∧
    ∃ rs st',
      process_batch (BatchProcessor.initialize_processor {} false).2 trivialEnv [] =
        Except.ok (rs, st') ∧
      st'.progress ≠ none ∧ ∀ r ∈ rs, r.success = false :=
  ⟨(C6_initialize_gate {} trivialEnv []).1 rfl,
    (C6_initialize_gate (BatchProcessor.initialize_processor {} false).2 trivialEnv []).2
      {} rfl⟩

/-- Claim C7: if the stop flag is observed set at some iteration before the
inputs are exhausted, `process_batch` still returns normally with the
partial result list collected so far; the final progress has `processed`
equal to the number of returned results, and `processed < total`. -/
theorem C7_cancellation_partial (st : BatchProcessorState) (e : BatchEnv)
    (image_paths : List String) (det : SpeciesDetectorState) (k : Nat)
    (hdet : st.detector = some det)
    (hperm : e.completionOrder.Perm image_paths)
    (hk : e.stopAt k = true) (hklt : k < image_paths.length) :
    ∃ rs st', process_batch st e image_paths = Except.ok (rs, st') ∧
      ∃ prF, st'.progress = some prF ∧
        prF.processed = rs.length ∧
        rs.length < image_paths.length ∧
        prF.processed < prF.total := by
  rw [process_batch_eq st e image_paths det hdet]
  have hdlen : (dispatchList st e image_paths).length = image_paths.length := by
    unfold dispatchList
    split
    · rfl
    · exact hperm.length_eq
  have hstop := processLoop_length_of_stop (itemFn det st e) e.stopAt e.tickAt
    e.start k hk (dispatchList st e image_paths) 0
    { job_id := e.job_id, total := image_paths.length } (Nat.zero_le k)
  have hlt :
      ((processLoop (itemFn det st e) e.stopAt e.tickAt e.start 0
        (dispatchList st e image_paths)
        { job_id := e.job_id, total := image_paths.length }).1).length <
        image_paths.length := by
    omega
  have hproc :
      ((processLoop (itemFn det st e) e.stopAt e.tickAt e.start 0
        (dispatchList st e image_paths)
        { job_id := e.job_id, total := image_paths.length }).2).processed =
      ((processLoop (itemFn det st e) e.stopAt e.tickAt e.start 0
        (dispatchList st e image_paths)
        { job_id := e.job_id, total := image_paths.length }).1).length := by
    rw [processLoop_progress, progressAfter_processed, resultEvents_length]
    simp
  have htot :
      ((processLoop (itemFn det st e) e.stopAt e.tickAt e.start 0
        (dispatchList st e image_paths)
        { job_id := e.job_id, total := image_paths.length }).2).total =
      image_paths.length := by
    rw [processLoop_progress, progressAfter_total]
  refine ⟨_, _, rfl, _, rfl, ?_, hlt, ?_⟩
  · rw [elapsed_patch_processed]
    exact hproc
  · rw [elapsed_patch_processed, elapsed_patch_total, hproc, htot]
    exact hlt

/-- A concrete one-path environment in which the stop flag is already set
when the first iteration checks it. -/
def stopEnv : BatchEnv :=
  { trivialEnv with stopAt := fun _ => true, completionOrder := ["a"] }

/-- Claim C7 witness: a concrete sequential run stopped before its first
item. -/
theorem C7_witness :
    ∃ rs st', process_batch stSeq stopEnv ["a"] = Except.ok (rs, st') ∧
      ∃ prF, st'.progress = some prF ∧
        prF.processed = rs.length ∧
        rs.length < (["a"] : List String).length ∧
        prF.processed < prF.total :=
  C7_cancellation_partial stSeq stopEnv ["a"] { is_initialized := true } 0
    rfl (List.Perm.refl _) rfl (by decide)

theorem mem_foldl_append {α β : Type} (f g : β → List α) (exts : List β) :
    ∀ (acc : List α) (x : α),
      x ∈ exts.foldl (fun a e => a ++ f e ++ g e) acc ↔
        x ∈ acc ∨ ∃ e ∈ exts, x ∈ f e ∨ x ∈ g e := by
  induction exts with
  | nil => intro acc x; simp
  | cons e rest ih =>
    intro acc x
    rw [List.foldl_cons, ih]
    constructor
    · rintro (hacc | ⟨e', he', hx⟩)
      · rw [List.mem_append, List.mem_append] at hacc
        rcases hacc with (h | h) | h
        · exact Or.inl h
        · exact Or.inr ⟨e, List.mem_cons_self _ _, Or.inl h⟩
        · exact Or.inr ⟨e, List.mem_cons_self _ _, Or.inr h⟩
      · exact Or.inr ⟨e', List.mem_cons_of_mem _ he', hx⟩
    · rintro (hacc | ⟨e', he', hx⟩)
      · refine Or.inl ?_
        rw [List.mem_append, List.mem_append]
        exact Or.inl (Or.inl hacc)
      · rcases List.mem_cons.mp he' with rfl | he'
        · refine Or.inl ?_
          rw [List.mem_append, List.mem_append]
          rcases hx with hx | hx
          · exact Or.inl (Or.inr hx)
          · exact Or.inr hx
        · exact Or.inr ⟨e', he', hx⟩

/-- Claim C9 counterexample: the directory walk only globs the all-lowercase
and the all-uppercase spelling of each supported extension
(`path.glob(f"{pattern}{ext}")` and `...{ext.upper()}`, lines 413-421), so a
file with a mixed-case extension such as `a.Jpg` — which the claim's
case-insensitive matcher accepts — is NOT returned. -/
theorem C9_counterexample :
    ¬ (∀ (root : String) (entries : List DirEntry) (recursive : Bool)
        (s : String),
        s ∈ find_images_dir root entries recursive ↔
          ∃ e ∈ entries, entryPath root e = s ∧
            specCaseInsensitiveMatch recursive e = true) := by
  intro h
  have h1 := (h "d" [{ relDirs := [], name := "a.Jpg", isFile := true }] true
    "d/a.Jpg").mpr
    ⟨{ relDirs := [], name := "a.Jpg", isFile := true }, by simp, by rfl,
      by rfl⟩
  have h2 : find_images_dir "d"
      [{ relDirs := [], name := "a.Jpg", isFile := true }] true = [] := by rfl
  rw [h2] at h1
  exact List.not_mem_nil _ h1

/-- Claim C9 (amended): for a directory input, `find_images` returns exactly
the files under it (at the depth the `recursive` flag allows) whose name
ends in a supported extension spelled either all-lowercase or all-uppercase
(mixed-case extensions are not matched), with duplicates removed and the
sequence sorted ascending — hence deterministic. -/
theorem C9_find_images_glob (root : String) (entries : List DirEntry)
    (recursive : Bool) :
    (∀ s, s ∈ find_images_dir root entries recursive ↔
      ∃ e ∈ entries, entryPath root e = s ∧ e.isFile = true ∧
        ∃ ext ∈ SUPPORTED_EXTENSIONS,
          globMatches recursive ext e = true ∨
          globMatches recursive (strToUpper ext) e = true) ∧
    (find_images_dir root entries recursive).Nodup ∧
    (find_images_dir root entries recursive).Sorted (· ≤ ·) := by
  refine ⟨?_, ?_, ?_⟩
  · intro s
    unfold find_images_dir
    rw [List.mem_insertionSort, List.mem_dedup, mem_foldl_append]
    simp only [List.not_mem_nil, false_or, List.mem_map, List.mem_filter,
      Bool.and_eq_true]
    constructor
    · rintro ⟨ext, hext, ⟨e, ⟨he, hf, hm⟩, rfl⟩ | ⟨e, ⟨he, hf, hm⟩, rfl⟩⟩
      · exact ⟨e, he, rfl, hf, ext, hext, Or.inl hm⟩
      · exact ⟨e, he, rfl, hf, ext, hext, Or.inr hm⟩
    · rintro ⟨e, he, rfl, hf, ext, hext, hm | hm⟩
      · exact ⟨ext, hext, Or.inl ⟨e, ⟨he, hf, hm⟩, rfl⟩⟩
      · exact ⟨ext, hext, Or.inr ⟨e, ⟨he, hf, hm⟩, rfl⟩⟩
  · unfold find_images_dir
    exact ((List.perm_insertionSort _ _).nodup_iff).mpr (List.nodup_dedup _)
  · unfold find_images_dir
    exact List.sorted_insertionSort _ _

end WildlifeDetector
